import Mathlib

/-
Verification of geph-autotest (src/src/main.rs): a shallow embedding of the
subprocess-supervision and probe-loop logic, with theorems checking the
natural-language specification against the code.

Modelling conventions:
  - a stderr line is a list of characters (Line);
  - the stderr stream of one spawn attempt is the finite list of lines that
    read_line returns before the stream closes (read_line returning 0 bytes);
  - panics (expect / unwrap / index out of bounds / fastrand on an empty
    range) are modelled as error values of an Except, since they abort the
    program rather than being retried;
  - the fresh mpsc channel created per spawn attempt (main.rs:273) is
    modelled by recording, per attempt, the list of strings sent on that
    attempt owned channel.
-/

namespace GephAutotest

abbrev Line := List Char

/-- Boolean substring test, modelling Rust str::contains as used at
main.rs:289 (`line.contains("TUNNEL_MANAGER MAIN LOOP")`). -/
def containsSub (needle : Line) : Line → Bool
  | [] => needle.isEmpty
  | c :: rest => needle.isPrefixOf (c :: rest) || containsSub needle rest

/-- The readiness marker constant of main.rs:289. -/
def readinessMarker : Line := "TUNNEL_MANAGER MAIN LOOP".toList

/-- Whether a stderr line contains the readiness marker (main.rs:289). -/
def containsMarker (l : Line) : Bool := containsSub readinessMarker l

/-- Whether some line of an attempt stream contains the marker. -/
def hasMarker (a : List Line) : Bool := a.any containsMarker

/-- A concrete marker-free line used in witnesses and counterexamples. -/
def xLine : Line := ['x']

/-- Result of the inner readiness-detection loop (main.rs:274-293) on one
spawn attempt. `sent` is the list of lines pushed onto this attempt channel,
in send order. In the `ready` case `rest` is the unread remainder of the
stream, adopted by the relay task; in the `closed` case the stream closed
(read_line returned 0) before any marker line. -/
inductive AttemptResult where
  | ready (sent : List Line) (rest : List Line)
  | closed (sent : List Line)
  deriving DecidableEq

/-- The inner loop of main.rs:274-293: read a line, send it on the channel,
then inspect it. A zero-byte read (stream exhausted) sends the now-empty
line buffer before breaking; a marker line returns with the remainder of
the stream handed to the relay. -/
def readLoop : List Line → List Line → AttemptResult
  | sent, [] => .closed (sent ++ [[]])
  | sent, l :: rest =>
    if containsMarker l then .ready (sent ++ [l]) rest
    else readLoop (sent ++ [l]) rest

/-- Events of the connect loop, in program order. `spawn` carries the
argument list of the `geph4-client connect` invocation (main.rs:249-267),
`backoff` carries the sleep duration in seconds (main.rs:285). -/
inductive Ev where
  | spawn (args : List String)
  | sendLine (l : Line)
  | reapChild
  | backoff (secs : Nat)
  | spawnRelay
  | returnReady
  deriving DecidableEq

/-- The constant argument list of the connect-mode invocation
(main.rs:250-264), fixed across all retries of the spawn loop. -/
def connectArgs (username password exitHostname : String) : List String :=
  ["connect", "--username", username, "--password", password,
   "--exit-server", exitHostname,
   "--http-listen", "127.0.0.1:10910",
   "--socks5-listen", "127.0.0.1:10909",
   "--stats-listen", "127.0.0.1:10809",
   "--credential-cache", "/tmp/manual"]

/-- Event trace of one spawn attempt (main.rs:274-293): each read line is
sent before it is inspected; on stream closure the empty line is sent, the
child is waited on, and a 1 second backoff elapses; on a marker line the
relay thread is spawned and connect_to_geph returns. -/
def attemptEvents : List Line → List Ev
  | [] => [.sendLine [], .reapChild, .backoff 1]
  | l :: rest =>
    .sendLine l :: (if containsMarker l then [.spawnRelay, .returnReady]
                    else attemptEvents rest)

/-- Event trace of the whole connect loop (main.rs:248-294) over a finite
prefix of spawn attempts supplied by the environment: each iteration spawns
the child with the same arguments, then runs the readiness loop; failed
attempts are followed by further iterations. -/
def connectEvents (args : List String) : List (List Line) → List Ev
  | [] => []
  | a :: rest =>
    .spawn args :: attemptEvents a ++
      (if hasMarker a then [] else connectEvents args rest)

/-- Data returned by the connect loop when some attempt reaches readiness:
the number of failed attempts before it, the lines already sent on the
returned channel (ending with the marker line), and the stream remainder
adopted by the relay task. -/
structure ConnectReady where
  retries : Nat
  chanBefore : List Line
  adopted : List Line
  deriving DecidableEq

/-- The connect loop of main.rs:248-294 over a finite list of attempt
streams: `none` means every supplied attempt closed without a marker and
the loop is still retrying (it has no give-up exit). -/
def connectPhase : List (List Line) → Option ConnectReady
  | [] => none
  | a :: rest =>
    match readLoop [] a with
    | .ready sent r => some ⟨0, sent, r⟩
    | .closed _ => (connectPhase rest).map fun c => { c with retries := c.retries + 1 }

/-- All lines sent on any per-attempt channel during the connect phase, in
read order, up to and including the successful attempt. -/
def allSentLines : List (List Line) → List Line
  | [] => []
  | a :: rest =>
    match readLoop [] a with
    | .ready sent _ => sent
    | .closed sent => sent ++ allSentLines rest

/-- The full content eventually observable on the receiver handed to the
caller of connect_to_geph: the lines sent before the handoff plus the lines
the relay forwards afterwards. Only the channel of the successful attempt
is returned to the caller; the channels of failed attempts are dropped. -/
def callerChannel (attempts : List (List Line)) : Option (List Line) :=
  (connectPhase attempts).map fun c => c.chanBefore ++ c.adopted

/-- One read result of the relay task loop (main.rs:303): a line
(read_line returned a positive count), end of stream (Ok 0), or an
I/O error. -/
inductive ReadRes where
  | line (l : Line)
  | eof
  | ioErr (msg : String)
  deriving DecidableEq

/-- How the relay task ended. `stillReading` means the supplied finite
read prefix ran out while the task was still looping; `panicked` models
the `Err` arm of main.rs:310-312, which aborts only the relay thread. -/
inductive RelayExit where
  | cleanEof
  | panicked (msg : String)
  | stillReading
  deriving DecidableEq

/-- The send_stderr relay task of main.rs:299-315, over a finite prefix of
read results. Returns the lines forwarded to the channel in order, the way
the task ended, and the number of reads performed. On Ok(0) it returns at
once without sending and without reading again; on Err it stops at once. -/
def send_stderr : List ReadRes → List Line × RelayExit × Nat
  | [] => ([], .stillReading, 0)
  | .eof :: _ => ([], .cleanEof, 1)
  | .ioErr m :: _ => ([], .panicked m, 1)
  | .line l :: rest =>
    (l :: (send_stderr rest).1, (send_stderr rest).2.1, (send_stderr rest).2.2 + 1)

/-- The stderr-draining loop of main.rs:164-167: the primary thread pops
lines from the channel with try_recv until it is empty or disconnected and
concatenates them; channel exhaustion is never an error. -/
def drainChannel (chan : List Line) : Line := chan.foldl (· ++ ·) []

/-- One element of the JSON array written by the sync-mode invocation
(main.rs:220-221), abstracted by what it deserializes to: `asUserInfo` is
`some b` when the element parses as SubscriptionInfo with b the presence of
the subscription field (main.rs:224-233), and `asExitList` is `some hs`
when it parses as a list of ExitDescriptor with hostnames hs
(main.rs:235-241). -/
structure JVal where
  asUserInfo : Option Bool
  asExitList : Option (List String)
  deriving DecidableEq

/-- The panics of the sync phase of connect_to_geph, each of which aborts
the program (no retry): bad JSON (main.rs:221), an index out of bounds on
the deserialized array (main.rs:230/240), the two expect calls on
deserialization (main.rs:230/241), and fastrand::usize over the empty
range when the exit list is empty (main.rs:244). -/
inductive SyncAbort where
  | badJson
  | indexOutOfBounds
  | badUserInfo
  | badExitList
  | emptyExitRange
  deriving DecidableEq

/-- The sync phase of connect_to_geph (main.rs:204-244): parse the JSON
array from the sync-mode invocation (`none` models unparsable output),
check element 0 for a subscription, pick the exit list at index 1 for a
plus user and index 2 otherwise, and select a random exit from it. The
random draw of fastrand::usize(..len) is modelled by r % len for an
arbitrary r. Returns the chosen exit hostname and the plus flag. -/
def syncPhase (stdout : Option (List JVal)) (r : Nat) : Except SyncAbort (String × Bool) :=
  match stdout with
  | none => .error .badJson
  | some ds =>
    match ds[0]? with
    | none => .error .indexOutOfBounds
    | some u =>
      match u.asUserInfo with
      | none => .error .badUserInfo
      | some isPlus =>
        match ds[if isPlus then 1 else 2]? with
        | none => .error .indexOutOfBounds
        | some v =>
          match v.asExitList with
          | none => .error .badExitList
          | some es =>
            match es with
            | [] => .error .emptyExitRange
            | e :: tl =>
              .ok (List.get (e :: tl) ⟨r % (e :: tl).length,
                    Nat.mod_lt r (Nat.succ_pos tl.length)⟩, isPlus)

/-- The full result of connect_to_geph (main.rs:203-295) when it returns:
the chosen exit hostname, the plus flag, and the connect-loop data. -/
structure ConnectOutcome where
  exitHostname : String
  is_plus : Bool
  retries : Nat
  chanBefore : List Line
  adopted : List Line
  deriving DecidableEq

/-- connect_to_geph (main.rs:203-295): the sync phase either aborts the
program (error) or yields the exit and plus flag, after which the connect
loop runs; `ok none` means the supplied finite attempt prefix was exhausted
with the loop still retrying. -/
def connect_to_geph (stdout : Option (List JVal)) (r : Nat)
    (attempts : List (List Line)) : Except SyncAbort (Option ConnectOutcome) :=
  match syncPhase stdout r with
  | .error e => .error e
  | .ok (host, plus) =>
    .ok ((connectPhase attempts).map fun c =>
      ⟨host, plus, c.retries, c.chanBefore, c.adopted⟩)

/-- MeasurementStruct of main.rs:49-53. -/
structure MeasurementStruct where
  download_time : Nat
  timestamp : Nat
  deriving DecidableEq

/-- DataOrError of main.rs:43-47; the HashMap is modelled as an
association list in insertion order. -/
inductive DataOrError where
  | data (m : List (String × List MeasurementStruct))
  | error (msg : String) (ts : Nat)
  deriving DecidableEq

/-- ResultStruct of main.rs:35-42. -/
structure ResultStruct where
  exit : String
  is_plus : Bool
  time_to_connect : Nat
  data_error : DataOrError
  geph_stderr : Line
  deriving DecidableEq

/-- Outcome of one timed download (main.rs:132-133), as supplied by the
environment: elapsed milliseconds and timestamp on success, or the error
message and timestamp on failure. -/
inductive DlRes where
  | success (millis ts : Nat)
  | failure (msg : String) (ts : Nat)
  deriving DecidableEq

/-- The per-test iteration loop of main.rs:131-153 over the download
outcomes of one test group: returns the collected result_vec, the error
recorded on the first failure (none if all iterations succeeded), and the
number of downloads actually performed (the loop breaks on the first
failure, abandoning the remaining iterations). -/
def runIterations : List DlRes → List MeasurementStruct × Option (String × Nat) × Nat
  | [] => ([], none, 0)
  | .success d t :: rest =>
    (⟨d, t⟩ :: (runIterations rest).1, (runIterations rest).2.1,
      (runIterations rest).2.2 + 1)
  | .failure m t :: _ => ([], some (m, t), 1)

/-- The test-group loop of main.rs:124-162: for each test, run its
iterations; on failure the data_error field is overwritten with the Error
variant (main.rs:144-147) and the match at main.rs:154-161 then breaks out
of the group loop without inserting; otherwise the result_vec is inserted
into the data map. -/
def runTests : List (String × List DlRes) → DataOrError → DataOrError
  | [], de => de
  | (name, dls) :: rest, de =>
    match (runIterations dls).2.1 with
    | some (m, t) => DataOrError.error m t
    | none =>
      match de with
      | .data mp => runTests rest (.data (mp ++ [(name, (runIterations dls).1)]))
      | .error m t => DataOrError.error m t

/-- The measurements carried by a DataOrError value: the Error variant
carries none. -/
def measurementsOf : DataOrError → List (String × List MeasurementStruct)
  | .data m => m
  | .error _ _ => []

/-- The result record assembled by one probe cycle (main.rs:103-167):
data_error is the outcome of the test-group loop starting from an empty
map, and geph_stderr is the concatenation of the drained channel lines. -/
def cycleRecord (exitName : String) (plus : Bool) (ttc : Nat)
    (tests : List (String × List DlRes)) (chan : List Line) : ResultStruct :=
  { exit := exitName, is_plus := plus, time_to_connect := ttc,
    data_error := runTests tests (.data []),
    geph_stderr := drainChannel chan }

/-- The tail of one probe cycle (main.rs:103-181): assemble the record,
serialize it (total in the model) and post it to the collector; on upload
success the record has been uploaded and the loop proceeds to the next
cycle, on upload failure the error propagates out of the cycle. -/
def mainCycle (exitName : String) (plus : Bool) (ttc : Nat)
    (tests : List (String × List DlRes)) (chan : List Line)
    (uploadOk : Bool) : Except String ResultStruct :=
  if uploadOk then .ok (cycleRecord exitName plus ttc tests chan)
  else .error "upload failed"

/-- The child process as seen by the cleanup guard: how many kill signals
it has received and how many times it has been waited on. -/
structure ChildProc where
  killCount : Nat
  waitCount : Nat
  deriving DecidableEq

/-- child.kill() (main.rs:96). -/
def killChild (c : ChildProc) : ChildProc := { c with killCount := c.killCount + 1 }

/-- child.wait() (main.rs:97). -/
def waitChild (c : ChildProc) : ChildProc := { c with waitCount := c.waitCount + 1 }

/-- The body of the scopeguard at main.rs:94-99: kill the child, then
wait on it. -/
def deferGuard (c : ChildProc) : ChildProc := waitChild (killChild c)

/-- Outcome of one step of the cycle body after connect_to_geph returns:
normal completion, an error propagated by the question-mark operator
(config fetch, TOML parse, timestamp, serialization, upload), or a panic
that unwinds the scope. -/
inductive StepOutcome where
  | ok
  | err (e : String)
  | panicked (m : String)
  deriving DecidableEq

/-- How the per-cycle usage scope was left. -/
inductive BodyExit where
  | finished
  | errored (e : String)
  | unwound (m : String)
  deriving DecidableEq

/-- Run the cycle body steps in order until the first error or panic. -/
def runSteps : List StepOutcome → BodyExit
  | [] => .finished
  | .ok :: rest => runSteps rest
  | .err e :: _ => .errored e
  | .panicked m :: _ => .unwound m

/-- The per-cycle usage scope of main.rs:89-182: whatever way the body
exits (normal completion, early return via an error, or panic unwinding),
the guard registered by scopeguard at main.rs:94-99 runs exactly once when
the scope is left, before its resources are released. scopeguard runs its
closure from Drop, which Rust executes on normal exit and during unwinding
alike. -/
def runCycleScope (steps : List StepOutcome) (c : ChildProc) : ChildProc × BodyExit :=
  (deferGuard c, runSteps steps)

/-- The support of the random sleep at main.rs:152 and main.rs:179-181:
fastrand::u64(0..=(interval * 2)), a uniform draw from the integers 0 to
interval * 2 inclusive. -/
def sleepChoices (interval : Nat) : List Nat := List.range (interval * 2 + 1)

/-- The expected value of the uniform draw over sleepChoices. -/
def expectedSleep (interval : Nat) : ℚ :=
  (((sleepChoices interval).map fun n : ℕ => (n : ℚ)).sum) /
    ((sleepChoices interval).length : ℚ)

lemma readLoop_closed : ∀ (a : List Line), a.any containsMarker = false →
    ∀ sent, readLoop sent a = .closed (sent ++ a ++ [[]]) := by
  intro a
  induction a with
  | nil => intro _ sent; simp [readLoop]
  | cons l rest ih =>
    intro ha sent
    simp only [List.any_cons, Bool.or_eq_false_iff] at ha
    simp [readLoop, ha.1, ih ha.2]

lemma readLoop_ready : ∀ (pre : List Line), pre.any containsMarker = false →
    ∀ (m : Line), containsMarker m = true → ∀ (rest : List Line) (sent : List Line),
    readLoop sent (pre ++ m :: rest) = .ready (sent ++ pre ++ [m]) rest := by
  intro pre
  induction pre with
  | nil => intro _ m hm rest sent; simp [readLoop, hm]
  | cons l pre ih =>
    intro hpre m hm rest sent
    simp only [List.any_cons, Bool.or_eq_false_iff] at hpre
    simp [readLoop, hpre.1, ih hpre.2 m hm rest]

lemma attemptEvents_closed : ∀ (a : List Line), a.any containsMarker = false →
    attemptEvents a = a.map Ev.sendLine ++ [.sendLine [], .reapChild, .backoff 1] := by
  intro a
  induction a with
  | nil => intro _; simp [attemptEvents]
  | cons l rest ih =>
    intro ha
    simp only [List.any_cons, Bool.or_eq_false_iff] at ha
    simp [attemptEvents, ha.1, ih ha.2]

lemma attemptEvents_ready : ∀ (pre : List Line), pre.any containsMarker = false →
    ∀ (m : Line), containsMarker m = true → ∀ (rest : List Line),
    attemptEvents (pre ++ m :: rest) =
      pre.map Ev.sendLine ++ [.sendLine m, .spawnRelay, .returnReady] := by
  intro pre
  induction pre with
  | nil => intro _ m hm rest; simp [attemptEvents, hm]
  | cons l pre ih =>
    intro hpre m hm rest
    simp only [List.any_cons, Bool.or_eq_false_iff] at hpre
    simp [attemptEvents, hpre.1, ih hpre.2 m hm rest]

lemma hasMarker_decomp (pre : List Line) (m : Line) (rest : List Line)
    (hm : containsMarker m = true) : hasMarker (pre ++ m :: rest) = true := by
  simp [hasMarker, List.any_append, List.any_cons, hm]

lemma readLoop_isReady : ∀ (a : List Line) (sent : List Line),
    (match readLoop sent a with | .ready _ _ => true | .closed _ => false)
      = hasMarker a := by
  intro a
  induction a with
  | nil => intro sent; simp [readLoop, hasMarker]
  | cons l rest ih =>
    intro sent
    by_cases h : containsMarker l = true
    · simp [readLoop, h, hasMarker]
    · simp only [Bool.not_eq_true] at h
      simp [readLoop, h, hasMarker, ih (sent ++ [l]), List.any_cons]

lemma connectPhase_isSome : ∀ (as : List (List Line)),
    (connectPhase as).isSome = as.any hasMarker := by
  intro as
  induction as with
  | nil => simp [connectPhase]
  | cons a rest ih =>
    have h := readLoop_isReady a []
    cases hr : readLoop [] a with
    | ready s r =>
      rw [hr] at h
      simp [connectPhase, hr, List.any_cons, ← h]
    | closed s =>
      rw [hr] at h
      cases hc : connectPhase rest with
      | none =>
        rw [hc] at ih
        simp [connectPhase, hr, hc, List.any_cons, ← h, ← ih]
      | some c =>
        rw [hc] at ih
        simp [connectPhase, hr, hc, List.any_cons, ← h, ← ih]

lemma connectPhase_all_fail : ∀ (fails : List (List Line)),
    (∀ b ∈ fails, hasMarker b = false) → ∀ (as : List (List Line)),
    connectPhase (fails ++ as) =
      (connectPhase as).map fun c => { c with retries := c.retries + fails.length } := by
  intro fails
  induction fails with
  | nil =>
    intro _ as
    cases hc : connectPhase as with
    | none => simp [hc]
    | some c => simp [hc]
  | cons b fails ih =>
    intro hf as
    have hb : b.any containsMarker = false := hf b (by simp)
    have hrest : ∀ x ∈ fails, hasMarker x = false := fun x hx => hf x (by simp [hx])
    have hcl := readLoop_closed b hb []
    have hih := ih hrest as
    cases hc : connectPhase as with
    | none =>
      rw [hc] at hih
      simp [connectPhase, hcl, hih]
    | some c =>
      rw [hc] at hih
      simp [connectPhase, hcl, hih, Nat.add_assoc]

lemma count_map_sendLine_spawnRelay (ls : List Line) :
    (ls.map Ev.sendLine).count Ev.spawnRelay = 0 := by
  rw [List.count_eq_zero]
  simp

lemma count_map_sendLine_returnReady (ls : List Line) :
    (ls.map Ev.sendLine).count Ev.returnReady = 0 := by
  rw [List.count_eq_zero]
  simp

lemma count_fails_spawnRelay (args : List String) : ∀ (fails : List (List Line)),
    (∀ b ∈ fails, hasMarker b = false) → ∀ (as : List (List Line)),
    (connectEvents args (fails ++ as)).count Ev.spawnRelay
      = (connectEvents args as).count Ev.spawnRelay := by
  intro fails
  induction fails with
  | nil => intro _ as; rfl
  | cons b fails ih =>
    intro hf as
    have hb : b.any containsMarker = false := hf b (by simp)
    have hbm : hasMarker b = false := hb
    have hrest : ∀ x ∈ fails, hasMarker x = false := fun x hx => hf x (by simp [hx])
    simp [connectEvents, hbm, attemptEvents_closed b hb, List.count_cons,
          List.count_append, count_map_sendLine_spawnRelay, ih hrest as]

lemma count_fails_returnReady (args : List String) : ∀ (fails : List (List Line)),
    (∀ b ∈ fails, hasMarker b = false) → ∀ (as : List (List Line)),
    (connectEvents args (fails ++ as)).count Ev.returnReady
      = (connectEvents args as).count Ev.returnReady := by
  intro fails
  induction fails with
  | nil => intro _ as; rfl
  | cons b fails ih =>
    intro hf as
    have hb : b.any containsMarker = false := hf b (by simp)
    have hbm : hasMarker b = false := hb
    have hrest : ∀ x ∈ fails, hasMarker x = false := fun x hx => hf x (by simp [hx])
    simp [connectEvents, hbm, attemptEvents_closed b hb, List.count_cons,
          List.count_append, count_map_sendLine_returnReady, ih hrest as]

lemma spawn_not_in_attemptEvents : ∀ (a : List Line) (xs : List String),
    Ev.spawn xs ∉ attemptEvents a := by
  intro a
  induction a with
  | nil => intro xs; simp [attemptEvents]
  | cons l rest ih =>
    intro xs
    by_cases h : containsMarker l = true
    · simp [attemptEvents, h]
    · simp only [Bool.not_eq_true] at h
      simp [attemptEvents, h, ih xs]

lemma spawn_args_fixed (args : List String) : ∀ (bs : List (List Line)) (xs : List String),
    Ev.spawn xs ∈ connectEvents args bs → xs = args := by
  intro bs
  induction bs with
  | nil => intro xs h; simp [connectEvents] at h
  | cons b bs ih =>
    intro xs h
    by_cases hb : hasMarker b = true
    · simp [connectEvents, hb, spawn_not_in_attemptEvents] at h
      exact h
    · simp only [Bool.not_eq_true] at hb
      simp [connectEvents, hb, spawn_not_in_attemptEvents] at h
      rcases h with h | h
      · exact h
      · exact ih xs h

lemma send_stderr_append_lines : ∀ (pre : List Line) (tail : List ReadRes),
    send_stderr (pre.map ReadRes.line ++ tail)
      = (pre ++ (send_stderr tail).1, (send_stderr tail).2.1,
          (send_stderr tail).2.2 + pre.length) := by
  intro pre
  induction pre with
  | nil => intro tail; simp
  | cons l pre ih =>
    intro tail
    simp [send_stderr, ih tail, Nat.add_assoc]

lemma runIterations_all_success : ∀ (dls : List DlRes),
    (∀ d ∈ dls, ∃ ms ts, d = DlRes.success ms ts) →
    (runIterations dls).2.1 = none := by
  intro dls
  induction dls with
  | nil => intro _; simp [runIterations]
  | cons d dls ih =>
    intro h
    obtain ⟨ms, ts, hd⟩ := h d (by simp)
    subst hd
    simp [runIterations, ih (fun x hx => h x (by simp [hx]))]

lemma runIterations_fail_after : ∀ (okRuns : List DlRes),
    (∀ d ∈ okRuns, ∃ ms ts, d = DlRes.success ms ts) →
    ∀ (msg : String) (ts : Nat) (post : List DlRes),
    (runIterations (okRuns ++ .failure msg ts :: post)).2
      = (some (msg, ts), okRuns.length + 1) := by
  intro okRuns
  induction okRuns with
  | nil => intro _ msg ts post; simp [runIterations]
  | cons d okRuns ih =>
    intro h msg ts post
    obtain ⟨ms, ts0, hd⟩ := h d (by simp)
    subst hd
    have hrec := ih (fun x hx => h x (by simp [hx])) msg ts post
    have h1 : (runIterations (okRuns ++ DlRes.failure msg ts :: post)).2.1
        = some (msg, ts) := by rw [hrec]
    have h2 : (runIterations (okRuns ++ DlRes.failure msg ts :: post)).2.2
        = okRuns.length + 1 := by rw [hrec]
    simp [runIterations, h1, h2]

lemma runTests_success_prefix : ∀ (completed : List (String × List DlRes)),
    (∀ p ∈ completed, ∀ d ∈ p.2, ∃ ms ts, d = DlRes.success ms ts) →
    ∀ (rest : List (String × List DlRes)) (mp : List (String × List MeasurementStruct)),
    ∃ mp2, runTests (completed ++ rest) (.data mp) = runTests rest (.data mp2) := by
  intro completed
  induction completed with
  | nil => intro _ rest mp; exact ⟨mp, rfl⟩
  | cons p completed ih =>
    intro h rest mp
    obtain ⟨name, dls⟩ := p
    have hall : ∀ d ∈ dls, ∃ ms ts, d = DlRes.success ms ts :=
      fun d hd => h (name, dls) (by simp) d hd
    have hnone : (runIterations dls).2.1 = none := runIterations_all_success dls hall
    have step : runTests (((name, dls) :: completed) ++ rest) (.data mp)
        = runTests (completed ++ rest) (.data (mp ++ [(name, (runIterations dls).1)])) := by
      simp [runTests, hnone]
    obtain ⟨mp2, hmp2⟩ := ih (fun q hq d hd => h q (by simp [hq]) d hd) rest
      (mp ++ [(name, (runIterations dls).1)])
    exact ⟨mp2, by rw [step, hmp2]⟩

lemma runTests_fail_head (name : String) (dls : List DlRes)
    (later : List (String × List DlRes)) (msg : String) (ts : Nat)
    (hfail : (runIterations dls).2.1 = some (msg, ts)) :
    ∀ mp, runTests ((name, dls) :: later) (.data mp) = .error msg ts := by
  intro mp
  simp [runTests, hfail]

lemma range_cast_sum : ∀ (n : ℕ),
    (((List.range n).map fun i : ℕ => (i : ℚ)).sum) * 2 = (n : ℚ) * ((n : ℚ) - 1) := by
  intro n
  induction n with
  | zero => simp
  | succ k ih =>
    rw [List.range_succ]
    rw [List.map_append, List.sum_append]
    simp only [List.map_cons, List.map_nil, List.sum_cons, List.sum_nil, add_zero]
    push_cast
    ring_nf
    ring_nf at ih
    linarith

/-- C1 counterexample: a line read during a spawn attempt that ends in
premature exit does not appear on the relay channel received by the caller
of connect_to_geph. With a first attempt whose stream yields only the
marker-free line xLine and a second attempt whose stream yields the marker
line, xLine is read and sent (to the first attempt discarded channel), yet
the channel handed to the caller carries only the marker line. -/
theorem failed_attempt_line_missing_from_caller_channel :
    xLine ∈ allSentLines [[xLine], [readinessMarker]]
    ∧ callerChannel [[xLine], [readinessMarker]] = some [readinessMarker]
    ∧ xLine ∉ [readinessMarker] :=
  ⟨by decide, by decide, by decide⟩

/-- C1 (amended): every line read during the spawn attempt that reaches
readiness, before or after the marker line, appears on the relay channel
received by the caller of connect_to_geph, in the exact order read and
with no loss; lines read during earlier attempts that ended in premature
exit were sent to those attempts own channels, which are dropped and never
reach the caller. -/
theorem caller_channel_carries_final_attempt_lines
    (fails : List (List Line)) (hf : ∀ b ∈ fails, hasMarker b = false)
    (pre : List Line) (m : Line) (rest : List Line)
    (hpre : pre.any containsMarker = false) (hm : containsMarker m = true)
    (post : List (List Line)) :
    callerChannel (fails ++ (pre ++ m :: rest) :: post) = some (pre ++ m :: rest) := by
  have h1 := readLoop_ready pre hpre m hm rest []
  have h2 : connectPhase ((pre ++ m :: rest) :: post) = some ⟨0, pre ++ [m], rest⟩ := by
    simp [connectPhase, h1]
  have h3 := connectPhase_all_fail fails hf ((pre ++ m :: rest) :: post)
  rw [h2] at h3
  simp [callerChannel, h3]

/-- Witness for the amended C1 theorem at a concrete input. -/
theorem caller_channel_carries_final_attempt_lines_witness :
    callerChannel [[xLine], [xLine, readinessMarker]] = some [xLine, readinessMarker] :=
  caller_channel_carries_final_attempt_lines [[xLine]] (by decide) [xLine] readinessMarker
    [] (by decide) (by decide) []

/-- C3: a spawn attempt whose stderr stream closes before a marker line
produces, in order, the send of the final empty read, a wait on the child
(reap), and a 1 second backoff; the connect loop then runs again, every
spawn carries the same argument list, and the loop returns only when some
attempt contains a marker line (no retry ceiling, no give-up exit: on any
finite marker-free attempt prefix the loop is still retrying). -/
theorem premature_close_reaps_backs_off_respawns
    (args : List String) (a : List Line) (ha : hasMarker a = false)
    (rest : List (List Line)) :
    attemptEvents a = a.map Ev.sendLine ++ [.sendLine [], .reapChild, .backoff 1]
    ∧ connectEvents args (a :: rest)
        = .spawn args :: attemptEvents a ++ connectEvents args rest
    ∧ (∀ as : List (List Line), (connectPhase as).isSome = as.any hasMarker)
    ∧ (∀ bs : List (List Line), ∀ xs : List String,
        Ev.spawn xs ∈ connectEvents args bs → xs = args) :=
  ⟨attemptEvents_closed a ha,
   by simp [connectEvents, ha],
   connectPhase_isSome,
   fun bs xs h => spawn_args_fixed args bs xs h⟩

/-- Witness for the C3 theorem at a concrete input. -/
theorem premature_close_reaps_backs_off_respawns_witness :
    hasMarker [xLine] = false
    ∧ attemptEvents [xLine] = [.sendLine xLine, .sendLine [], .reapChild, .backoff 1] :=
  ⟨by decide,
   (premature_close_reaps_backs_off_respawns (connectArgs "u" "p" "h") [xLine]
      (by decide) []).1⟩

/-- C4: on a stream whose first marker-bearing line is m (the marker can
occur anywhere inside the line, since containment is substring search),
readiness is declared exactly once, on m and on no earlier line: the
connect loop returns with the channel holding exactly the lines up to and
including m, exactly one relay task is spawned and exactly one return
event occurs over the whole trace, and connect_to_geph hands the caller
the chosen exit hostname, the plus flag, and the receiver. -/
theorem readiness_on_first_marker_line
    (fails : List (List Line)) (hf : ∀ b ∈ fails, hasMarker b = false)
    (pre : List Line) (m : Line) (rest : List Line)
    (hpre : pre.any containsMarker = false) (hm : containsMarker m = true)
    (post : List (List Line)) (args : List String)
    (stdout : Option (List JVal)) (r : Nat) (host : String) (plus : Bool)
    (hsync : syncPhase stdout r = .ok (host, plus)) :
    connectPhase (fails ++ (pre ++ m :: rest) :: post)
      = some ⟨fails.length, pre ++ [m], rest⟩
    ∧ (connectEvents args (fails ++ (pre ++ m :: rest) :: post)).count Ev.spawnRelay = 1
    ∧ (connectEvents args (fails ++ (pre ++ m :: rest) :: post)).count Ev.returnReady = 1
    ∧ connect_to_geph stdout r (fails ++ (pre ++ m :: rest) :: post)
        = .ok (some ⟨host, plus, fails.length, pre ++ [m], rest⟩) := by
  have hrm := readLoop_ready pre hpre m hm rest []
  have hcp : connectPhase ((pre ++ m :: rest) :: post) = some ⟨0, pre ++ [m], rest⟩ := by
    simp [connectPhase, hrm]
  have hall := connectPhase_all_fail fails hf ((pre ++ m :: rest) :: post)
  rw [hcp] at hall
  have h1 : connectPhase (fails ++ (pre ++ m :: rest) :: post)
      = some ⟨fails.length, pre ++ [m], rest⟩ := by
    simpa using hall
  have hmk : hasMarker (pre ++ m :: rest) = true := hasMarker_decomp pre m rest hm
  have hc2 : (connectEvents args ((pre ++ m :: rest) :: post)).count Ev.spawnRelay = 1 := by
    simp [connectEvents, hmk, attemptEvents_ready pre hpre m hm rest,
          List.count_cons, List.count_append, count_map_sendLine_spawnRelay]
  have hc3 : (connectEvents args ((pre ++ m :: rest) :: post)).count Ev.returnReady = 1 := by
    simp [connectEvents, hmk, attemptEvents_ready pre hpre m hm rest,
          List.count_cons, List.count_append, count_map_sendLine_returnReady]
  refine ⟨h1, ?_, ?_, ?_⟩
  · rw [count_fails_spawnRelay args fails hf ((pre ++ m :: rest) :: post)]
    exact hc2
  · rw [count_fails_returnReady args fails hf ((pre ++ m :: rest) :: post)]
    exact hc3
  · simp [connect_to_geph, hsync, h1]

/-- Witness for the C4 theorem at a concrete input. -/
theorem readiness_on_first_marker_line_witness :
    connectPhase [[xLine], [xLine, readinessMarker, xLine]]
      = some ⟨1, [xLine, readinessMarker], [xLine]⟩ :=
  (readiness_on_first_marker_line [[xLine]] (by decide) [xLine] readinessMarker [xLine]
    (by decide) (by decide) [] (connectArgs "u" "p" "h")
    (some [⟨some true, none⟩, ⟨none, some ["h"]⟩]) 0 "h" true (by rfl)).1

/-- C9: every read result is sent to the channel before it is inspected:
the line carrying the readiness marker is itself in the sent list when the
loop declares readiness (and the send event precedes the relay spawn and
the return), and a zero-byte read appends one empty string to the sent
list before the reap and backoff events of the retry path. -/
theorem lines_sent_before_inspection
    (pre : List Line) (m : Line) (rest : List Line)
    (hpre : pre.any containsMarker = false) (hm : containsMarker m = true)
    (a : List Line) (ha : hasMarker a = false) :
    readLoop [] (pre ++ m :: rest) = .ready (pre ++ [m]) rest
    ∧ attemptEvents (pre ++ m :: rest)
        = pre.map Ev.sendLine ++ [.sendLine m, .spawnRelay, .returnReady]
    ∧ readLoop [] a = .closed (a ++ [[]])
    ∧ attemptEvents a = a.map Ev.sendLine ++ [.sendLine [], .reapChild, .backoff 1] := by
  refine ⟨?_, attemptEvents_ready pre hpre m hm rest, ?_, attemptEvents_closed a ha⟩
  · have h := readLoop_ready pre hpre m hm rest []
    simpa using h
  · have h := readLoop_closed a ha []
    simpa using h

/-- Witness for the C9 theorem at a concrete input. -/
theorem lines_sent_before_inspection_witness :
    readLoop [] [xLine, readinessMarker] = .ready [xLine, readinessMarker] [] :=
  (lines_sent_before_inspection [xLine] readinessMarker [] (by decide) (by decide)
    [xLine] (by decide)).1

/-- C2 counterexample: with test group a completing one successful
measurement and test group b then failing, the record assembled for upload
carries only the error: the data map holding the measurements of the
previously completed group a is overwritten by the Error variant
(main.rs:144-147), so the uploaded record contains no partial results. -/
theorem partial_results_discarded_on_download_failure :
    runTests [("a", [.success 5 10]), ("b", [.failure "boom" 20])] (.data [])
      = .error "boom" 20
    ∧ measurementsOf
        (runTests [("a", [.success 5 10]), ("b", [.failure "boom" 20])] (.data [])) = []
    ∧ (cycleRecord "exit1" false 100
        [("a", [.success 5 10]), ("b", [.failure "boom" 20])] []).data_error
      = .error "boom" 20 :=
  ⟨rfl, rfl, rfl⟩

/-- C2 (amended): when a timed download fails in some iteration of a test
group, the error (message and timestamp) is recorded as the record
data_error, replacing the whole data map, so the measurements of
previously completed test groups are discarded rather than uploaded; the
remaining iterations of that group are abandoned (exactly the downloads up
to and including the failing one are performed); the cycle still uploads
the result record, now carrying only the error, and proceeds to the next
overall cycle. -/
theorem download_failure_replaces_data_and_continues
    (completed : List (String × List DlRes))
    (hc : ∀ p ∈ completed, ∀ d ∈ p.2, ∃ ms ts, d = DlRes.success ms ts)
    (name : String) (okRuns : List DlRes)
    (hok : ∀ d ∈ okRuns, ∃ ms ts, d = DlRes.success ms ts)
    (msg : String) (ts : Nat) (post : List DlRes)
    (later : List (String × List DlRes))
    (exitName : String) (plus : Bool) (ttc : Nat) (chan : List Line) :
    runTests (completed ++ (name, okRuns ++ .failure msg ts :: post) :: later) (.data [])
      = .error msg ts
    ∧ (runIterations (okRuns ++ .failure msg ts :: post)).2.2 = okRuns.length + 1
    ∧ mainCycle exitName plus ttc
        (completed ++ (name, okRuns ++ .failure msg ts :: post) :: later) chan true
      = .ok { exit := exitName, is_plus := plus, time_to_connect := ttc,
              data_error := .error msg ts, geph_stderr := drainChannel chan } := by
  have hfail2 := runIterations_fail_after okRuns hok msg ts post
  have hfail1 : (runIterations (okRuns ++ DlRes.failure msg ts :: post)).2.1
      = some (msg, ts) := by rw [hfail2]
  have hcnt : (runIterations (okRuns ++ DlRes.failure msg ts :: post)).2.2
      = okRuns.length + 1 := by rw [hfail2]
  obtain ⟨mp2, hmp2⟩ := runTests_success_prefix completed hc
    ((name, okRuns ++ .failure msg ts :: post) :: later) []
  have hrt : runTests (completed ++ (name, okRuns ++ .failure msg ts :: post) :: later)
      (.data []) = .error msg ts := by
    rw [hmp2, runTests_fail_head name _ later msg ts hfail1]
  refine ⟨hrt, hcnt, ?_⟩
  simp [mainCycle, cycleRecord, hrt]

/-- Witness for the amended C2 theorem at a concrete input. -/
theorem download_failure_replaces_data_and_continues_witness :
    runTests [("a", [.success 5 10]), ("b", [.success 7 15, .failure "boom" 20, .success 9 25])]
      (.data []) = .error "boom" 20 :=
  (download_failure_replaces_data_and_continues [("a", [.success 5 10])]
    (by intro p hp d hd; fin_cases hp; fin_cases hd; exact ⟨5, 10, rfl⟩)
    "b" [.success 7 15]
    (by intro d hd; fin_cases hd; exact ⟨7, 15, rfl⟩)
    "boom" 20 [.success 9 25] [] "exit1" false 100 []).1

/-- C5: on every exit from the per-cycle usage scope, whether the body
finishes normally, returns early with a propagated error, or panics and
unwinds, the scopeguard kills the subprocess and waits on it exactly once
before the scope ends, and the body exit cause is unchanged by the guard. -/
theorem cycle_scope_kills_and_reaps_once (steps : List StepOutcome) (c : ChildProc)
    (hk : c.killCount = 0) (hw : c.waitCount = 0) :
    (runCycleScope steps c).1.killCount = 1
    ∧ (runCycleScope steps c).1.waitCount = 1
    ∧ (runCycleScope steps c).2 = runSteps steps := by
  simp [runCycleScope, deferGuard, killChild, waitChild, hk, hw]

/-- Witness for the C5 theorem at a concrete input: an upload error path. -/
theorem cycle_scope_kills_and_reaps_once_witness :
    (runCycleScope [StepOutcome.ok, StepOutcome.err "upload failed"] ⟨0, 0⟩).1.killCount = 1
    ∧ (runCycleScope [StepOutcome.ok, StepOutcome.err "upload failed"] ⟨0, 0⟩).1.waitCount = 1
    ∧ (runCycleScope [StepOutcome.ok, StepOutcome.err "upload failed"] ⟨0, 0⟩).2
        = runSteps [StepOutcome.ok, StepOutcome.err "upload failed"] :=
  cycle_scope_kills_and_reaps_once [StepOutcome.ok, StepOutcome.err "upload failed"]
    ⟨0, 0⟩ rfl rfl

/-- C6 counterexample: a 2-element sync-mode array does not always abort.
For a plus user (subscription present in element 0) the applicable exit
list index is 1, which a 2-element array has, so connect_to_geph proceeds
normally instead of failing fatally. -/
theorem two_element_sync_array_ok_for_plus_user :
    syncPhase (some [⟨some true, none⟩, ⟨none, some ["us-east"]⟩]) 0 = .ok ("us-east", true)
    ∧ connect_to_geph (some [⟨some true, none⟩, ⟨none, some ["us-east"]⟩]) 0
        [[readinessMarker]]
      = .ok (some ⟨"us-east", true, 0, [readinessMarker], []⟩) :=
  ⟨rfl, rfl⟩

/-- C6 (amended): for a non-plus user the applicable exit list index is 2,
so a 2-element sync-mode array makes connect_to_geph abort fatally (index
out of bounds) without retrying and without running the connect loop;
malformed JSON from sync mode likewise aborts fatally for any attempt
environment. For a plus user a 2-element array is sufficient and does not
abort. -/
theorem sync_two_elements_fatal_for_nonplus (u v : JVal) (r : Nat)
    (hu : u.asUserInfo = some false) (attempts : List (List Line)) :
    syncPhase (some [u, v]) r = .error .indexOutOfBounds
    ∧ connect_to_geph (some [u, v]) r attempts = .error .indexOutOfBounds
    ∧ syncPhase none r = .error .badJson
    ∧ connect_to_geph none r attempts = .error .badJson := by
  have h1 : syncPhase (some [u, v]) r = .error .indexOutOfBounds := by
    simp [syncPhase, hu]
  exact ⟨h1, by simp [connect_to_geph, h1], rfl, rfl⟩

/-- Witness for the amended C6 theorem at a concrete input. -/
theorem sync_two_elements_fatal_for_nonplus_witness :
    syncPhase (some [⟨some false, none⟩, ⟨none, some ["us-east"]⟩]) 0
      = .error .indexOutOfBounds :=
  (sync_two_elements_fatal_for_nonplus ⟨some false, none⟩ ⟨none, some ["us-east"]⟩ 0
    rfl []).1

/-- C7: after readiness the relay task forwards each line it reads, pushes
the final partial line (the last positive-length read), and on a
zero-length read terminates cleanly at once, performing no further read;
on a read error it stops in the same way with a relay-local panic, and the
channel content the primary thread drains is identical to the clean-end
case, so the error is never escalated to the primary thread. -/
theorem relay_stops_at_eof_and_error_is_local
    (pre : List Line) (post : List ReadRes) (emsg : String) :
    send_stderr (pre.map ReadRes.line ++ ReadRes.eof :: post)
      = (pre, .cleanEof, pre.length + 1)
    ∧ send_stderr (pre.map ReadRes.line ++ ReadRes.ioErr emsg :: post)
        = (pre, .panicked emsg, pre.length + 1)
    ∧ drainChannel (send_stderr (pre.map ReadRes.line ++ ReadRes.eof :: post)).1
        = drainChannel (send_stderr (pre.map ReadRes.line ++ ReadRes.ioErr emsg :: post)).1 := by
  have h1 := send_stderr_append_lines pre (ReadRes.eof :: post)
  have h2 := send_stderr_append_lines pre (ReadRes.ioErr emsg :: post)
  refine ⟨?_, ?_, ?_⟩
  · rw [h1]; simp [send_stderr, Nat.add_comm]
  · rw [h2]; simp [send_stderr, Nat.add_comm]
  · rw [h1, h2]; simp [send_stderr]

/-- C8: both inter-iteration sleeps draw uniformly from the integer
seconds 0 to interval * 2 inclusive (a support of interval * 2 + 1 equally
likely values), and the expected value of that draw equals the configured
interval. -/
theorem sleep_uniform_support_and_mean (k : ℕ) :
    (∀ n, n ∈ sleepChoices k ↔ n ≤ k * 2)
    ∧ (sleepChoices k).length = k * 2 + 1
    ∧ expectedSleep k = (k : ℚ) := by
  refine ⟨fun n => by simp [sleepChoices, List.mem_range, Nat.lt_succ_iff],
          by simp [sleepChoices], ?_⟩
  have h := range_cast_sum (k * 2 + 1)
  unfold expectedSleep sleepChoices
  rw [List.length_range]
  have hne : ((k * 2 + 1 : ℕ) : ℚ) ≠ 0 := by positivity
  rw [div_eq_iff hne]
  push_cast at h ⊢
  ring_nf at h ⊢
  linarith

/-- C10: if the applicable exit list parsed from sync-mode output (index 1
for a plus user, index 2 otherwise) is empty, the random exit selection
draws from an empty range, which panics: connect_to_geph aborts fatally on
that input for every attempt environment, neither retrying nor
returning. -/
theorem empty_exit_list_aborts (u v1 v2 : JVal) (plus : Bool) (r : Nat)
    (hu : u.asUserInfo = some plus)
    (hv : (if plus then v1 else v2).asExitList = some [])
    (attempts : List (List Line)) :
    syncPhase (some [u, v1, v2]) r = .error .emptyExitRange
    ∧ connect_to_geph (some [u, v1, v2]) r attempts = .error .emptyExitRange := by
  have h1 : syncPhase (some [u, v1, v2]) r = .error .emptyExitRange := by
    cases plus with
    | false =>
      simp only [Bool.false_eq_true, if_false] at hv
      simp [syncPhase, hu, hv]
    | true =>
      simp only [if_true] at hv
      simp [syncPhase, hu, hv]
  exact ⟨h1, by simp [connect_to_geph, h1]⟩

/-- Witness for the C10 theorem at a concrete input. -/
theorem empty_exit_list_aborts_witness :
    syncPhase (some [⟨some true, none⟩, ⟨none, some []⟩, ⟨none, some ["h"]⟩]) 0
      = .error .emptyExitRange :=
  (empty_exit_list_aborts ⟨some true, none⟩ ⟨none, some []⟩ ⟨none, some ["h"]⟩ true 0
    rfl rfl []).1

end GephAutotest
